import Mathlib

/-!
Verification development for the transit snapshot engine of this repository
(`src/backend/server.js`: `buildShapesCache`, the `/api/shapes_merged`
handler and the `/api/vehicles` handler, together with the pieces of the
`simplify-js` library that `buildShapesCache` invokes, and the
`readGTFSFile` boundary of `src/backend/gtfsParser.js`).

Modelling conventions:

* A JavaScript number (IEEE float64) is idealised as `ℚ`; the value `NaN`
  is represented by `none` in `JsNum := Option ℚ`.  Every arithmetic
  operation and comparison used by the embedded code propagates `none`
  exactly the way JS propagates `NaN` (arithmetic yields `NaN`, ordering
  comparisons yield `false`, `!==` yields `true`).
* A JavaScript `undefined`/missing field is an `Option` that is `none`.
* A CSV field that the code feeds through `Number(...)` is modelled as the
  already-converted `JsNum` value (`none` for non-numeric text).
* A JS object used as a dictionary is an insertion-ordered association
  list (`aget`/`aset` below).  JS additionally enumerates integer-like
  keys first; no theorem below depends on the enumeration order of two or
  more distinct keys, so plain insertion order is used.
* The concurrent fan-out of the `/api/vehicles` handler is parameterised
  by the settlement order `sched` of the per-source tasks — the order in
  which the `Promise.all` tasks reach their final `vehicles.push` /
  `console.error` section.  Any permutation of the source indices is a
  possible settlement order.
* `Math.random()` is an oracle `rnd : ℕ → ℚ` consumed left to right.
-/

/-- A JS number; `none` plays the role of `NaN`. -/
abbrev JsNum := Option ℚ

/-- JS addition (`NaN` propagates). -/
def jadd : JsNum → JsNum → JsNum
  | some a, some b => some (a + b)
  | _, _ => none

/-- JS subtraction (`NaN` propagates). -/
def jsub : JsNum → JsNum → JsNum
  | some a, some b => some (a - b)
  | _, _ => none

/-- JS multiplication (`NaN` propagates). -/
def jmul : JsNum → JsNum → JsNum
  | some a, some b => some (a * b)
  | _, _ => none

/-- JS division as exercised by the embedded code: on every reachable path
the divisor is nonzero (the `getSqSegDist` guard), so only the `NaN`
propagation and the ordinary quotient matter; a zero divisor is mapped to
`NaN` rather than to an infinity, and no theorem depends on that branch. -/
def jdiv : JsNum → JsNum → JsNum
  | some a, some b => if b = 0 then none else some (a / b)
  | _, _ => none

/-- The JS comparison `a < b` (`false` whenever an operand is `NaN`). -/
def jlt : JsNum → JsNum → Bool
  | some a, some b => decide (a < b)
  | _, _ => false

/-- The JS strict inequality `a !== b` (`true` whenever an operand is `NaN`). -/
def jne : JsNum → JsNum → Bool
  | some a, some b => decide (a ≠ b)
  | _, _ => true

/-- The composite `Number(x.toFixed(5))` applied by `buildShapesCache` to
every coordinate: rounding to 5 decimal digits with ties toward `+∞`, as
the `toFixed` specification prescribes (`NaN` round-trips to `NaN` via the
string `"NaN"`). -/
def jfix5 : JsNum → JsNum
  | some q => some ((⌊q * 100000 + 1 / 2⌋ : ℚ) / 100000)
  | none => none

/-- A point in the `{x, y}` form `buildShapesCache` hands to simplify-js
(`x` is the longitude, `y` the latitude). -/
structure Pt where
  x : JsNum
  y : JsNum
deriving DecidableEq

/-- Fallback point for out-of-range index access (unreachable in the
embedded code's call patterns, where indices are always in range). -/
def noPt : Pt := Pt.mk none none

/-- simplify-js `getSqDist`: square of the distance between two points. -/
def getSqDist (p1 p2 : Pt) : JsNum :=
  jadd (jmul (jsub p1.x p2.x) (jsub p1.x p2.x))
       (jmul (jsub p1.y p2.y) (jsub p1.y p2.y))

/-- simplify-js `getSqSegDist`: square of the distance from `p` to the
segment `p1`–`p2`. -/
def getSqSegDist (p p1 p2 : Pt) : JsNum :=
  let dx := jsub p2.x p1.x
  let dy := jsub p2.y p1.y
  let xy :=
    if jne dx (some 0) || jne dy (some 0) then
      let t := jdiv (jadd (jmul (jsub p.x p1.x) dx) (jmul (jsub p.y p1.y) dy))
                    (jadd (jmul dx dx) (jmul dy dy))
      if jlt (some 1) t then (p2.x, p2.y)
      else if jlt (some 0) t then (jadd p1.x (jmul dx t), jadd p1.y (jmul dy t))
      else (p1.x, p1.y)
    else (p1.x, p1.y)
  jadd (jmul (jsub p.x xy.1) (jsub p.x xy.1)) (jmul (jsub p.y xy.2) (jsub p.y xy.2))

/-- simplify-js `simplifyRadialDist`.  The final JS test
`prevPoint !== point` compares object identities; the points handed over
by `buildShapesCache` are freshly allocated, so it asks exactly whether
the last loop iteration pushed, which the Boolean component tracks. -/
def simplifyRadialDist (points : List Pt) (sqTolerance : JsNum) : List Pt :=
  match points with
  | [] => []
  | p0 :: rest =>
    let res := rest.foldl
      (fun (st : List Pt × Pt × Bool) (pt : Pt) =>
        if jlt sqTolerance (getSqDist pt st.2.1) then (st.1 ++ [pt], pt, true)
        else (st.1, st.2.1, false))
      ([p0], p0, false)
    match rest.getLast? with
    | none => res.1
    | some plast => if res.2.2 then res.1 else res.1 ++ [plast]

/-- The scan inside simplify-js `simplifyDPStep`: the running maximum
square segment distance (starting at `0`) over the indices strictly
between `first` and `last`, together with the index realising it (unset
while no distance has beaten the running maximum). -/
def maxSqDistIdx (points : List Pt) (first last : ℕ) : JsNum × Option ℕ :=
  (List.range (last - first - 1)).foldl
    (fun (st : JsNum × Option ℕ) (k : ℕ) =>
      let i := first + 1 + k
      let d := getSqSegDist (points.getD i noPt) (points.getD first noPt) (points.getD last noPt)
      if jlt st.1 d then (d, some i) else st)
    (some 0, none)

/-- simplify-js `simplifyDPStep`, the recursive core of Douglas–Peucker,
with explicit fuel for termination.  The fuel is always sufficient in the
embedded call pattern because the split index lies strictly between
`first` and `last`, so each recursive range is strictly shorter; the
`none` index branch is unreachable for a nonnegative tolerance. -/
def simplifyDPStep (points : List Pt) (sqTolerance : JsNum) : ℕ → ℕ → ℕ → List Pt
  | 0, _, _ => []
  | fuel + 1, first, last =>
    let md := maxSqDistIdx points first last
    if jlt sqTolerance md.1 then
      match md.2 with
      | some index =>
          (if index - first > 1 then simplifyDPStep points sqTolerance fuel first index else [])
            ++ [points.getD index noPt]
            ++ (if last - index > 1 then simplifyDPStep points sqTolerance fuel index last else [])
      | none => []
    else []

/-- simplify-js `simplifyDouglasPeucker`: the first point, the recursively
selected interior points, and the last point. -/
def simplifyDouglasPeucker (points : List Pt) (sqTolerance : JsNum) : List Pt :=
  let last := points.length - 1
  points.getD 0 noPt ::
    (simplifyDPStep points sqTolerance points.length 0 last ++ [points.getD last noPt])

/-- simplify-js `simplify`; `buildShapesCache` calls it with tolerance
`0.0005` and `highestQuality = true` (the tolerance argument is always
supplied, so the `tolerance !== undefined` default never fires). -/
def simplify (points : List Pt) (tolerance : JsNum) (highestQuality : Bool) : List Pt :=
  if points.length ≤ 2 then points
  else
    let sqTolerance := jmul tolerance tolerance
    let pts := if highestQuality then points else simplifyRadialDist points sqTolerance
    simplifyDouglasPeucker pts sqTolerance

/-- A row of `shapes.txt` as consumed by `buildShapesCache`.  The three
numeric fields hold the value `Number(...)` yields on the raw CSV text
(`none`, i.e. `NaN`, for non-numeric text; the code applies `Number` to
`shape_pt_sequence` in the sort comparator and to `shape_pt_lon` /
`shape_pt_lat` when building simplify-js points). -/
structure ShapeRow where
  shape_id : String
  shape_pt_sequence : JsNum
  shape_pt_lon : JsNum
  shape_pt_lat : JsNum
deriving DecidableEq

/-- A row of `trips.txt`; `none` models a missing (`undefined`) field. -/
structure TripRow where
  route_id : Option String
  shape_id : Option String
  direction_id : Option String
deriving DecidableEq

/-- JS truthiness of an optional string (`undefined` and `""` are falsy,
which is exactly what `if (!route_id || !shape_id) continue` tests). -/
def truthy : Option String → Bool
  | none => false
  | some s => !(s == "")

/-- Stable insertion of `a` behind every already-placed `b` with `keep b a`:
folding this over the input is a stable sort.  `Array.prototype.sort` is
required to be stable and, for a consistent comparator, produces exactly
this order; `keep b a` says the comparator does not force `b` behind `a`. -/
def insertStable (keep : α → α → Bool) (a : α) : List α → List α
  | [] => [a]
  | b :: bs => if keep b a then b :: insertStable keep a bs else a :: b :: bs

/-- Stable sort modelling `Array.prototype.sort(cmp)`. -/
def jsSort (keep : α → α → Bool) (l : List α) : List α :=
  l.foldl (fun acc x => insertStable keep x acc) []

/-- The comparator
`(a, b) => Number(a.shape_pt_sequence) - Number(b.shape_pt_sequence)`:
`b` stays in front of a later `a` when the difference is `≤ 0` — or `NaN`,
in which case the sort may leave the pair as it finds it (the comparator
is then inconsistent and the JS order is implementation-defined; no
theorem below depends on the order of rows with non-numeric sequences). -/
def seqKeep (b a : ShapeRow) : Bool :=
  match jsub b.shape_pt_sequence a.shape_pt_sequence with
  | none => true
  | some d => decide (d ≤ 0)

/-- The entry `shapesById[sid]` of `buildShapesCache` after the grouping
loop and the per-shape sort: the rows carrying this `shape_id`, in input
order, stably sorted by numeric sequence.  The entry exists in the JS
object exactly when this list is nonempty. -/
def groupSorted (shapes : List ShapeRow) (sid : String) : List ShapeRow :=
  jsSort seqKeep (shapes.filter (fun r => r.shape_id == sid))

/-- A `[lon, lat]` coordinate pair as stored in the cache. -/
abbrev Coord := JsNum × JsNum

/-- The simplified line `buildShapesCache` pushes for shape `sid`: the
sorted shape points as `{x, y}` pairs, simplified with tolerance `0.0005`
and `highestQuality = true`, each coordinate then passed through
`Number(pt.x.toFixed(5))`. -/
def lineOf (shapes : List ShapeRow) (sid : String) : List Coord :=
  (simplify ((groupSorted shapes sid).map fun p => Pt.mk p.shape_pt_lon p.shape_pt_lat)
      (some (1 / 2000)) true).map fun pt => (jfix5 pt.x, jfix5 pt.y)

/-- Lookup in a JS object modelled as an association list. -/
def aget (m : List (String × α)) (k : String) : Option α :=
  match m with
  | [] => none
  | p :: rest => if p.1 == k then some p.2 else aget rest k

/-- Assignment in a JS object: an existing key keeps its position, a new
key is appended (JS insertion order). -/
def aset (m : List (String × α)) (k : String) (v : α) : List (String × α) :=
  match m with
  | [] => [(k, v)]
  | p :: rest => if p.1 == k then (k, v) :: rest else p :: aset rest k v

/-- The `routeDirShapes` dictionary: route id → direction → pushed lines. -/
abbrev Rds := List (String × List (String × List (List Coord)))

/-- The mutable state of the trips loop in `buildShapesCache`:
`processedShapeKeys` and `routeDirShapes`. -/
structure BuildState where
  processed : List String
  rds : Rds

/-- The dedup key `` `${route_id}|${dir}|${shape_id}` ``. -/
def keyOf3 (r d s : String) : String := r ++ "|" ++ d ++ "|" ++ s

/-- The key of a trip row, with the direction resolved as the code
resolves it (`direction_id ?? "0"`). -/
def tripKey (t : TripRow) : String :=
  keyOf3 (t.route_id.getD "") (t.direction_id.getD "0") (t.shape_id.getD "")

/-- The two slot-creating statements
`if (!routeDirShapes[route_id]) routeDirShapes[route_id] = {};` and
`if (!routeDirShapes[route_id][dir]) routeDirShapes[route_id][dir] = [];`
(they run before the duplicate check, so a skipped duplicate still leaves
the slot in place). -/
def ensureSlot (rds : Rds) (r d : String) : Rds :=
  let rds1 := if (aget rds r).isNone then aset rds r [] else rds
  let dm1 := (aget rds1 r).getD []
  if (aget dm1 d).isNone then aset rds1 r (aset dm1 d []) else rds1

/-- The final `routeDirShapes[route_id][dir].push(simplifiedCoords)`. -/
def pushLine (rds : Rds) (r d : String) (line : List Coord) : Rds :=
  let dm := (aget rds r).getD []
  let lines := (aget dm d).getD []
  aset rds r (aset dm d (lines ++ [line]))

/-- One iteration of `for (const trip of trips)` in `buildShapesCache`:
skip on a falsy `route_id`/`shape_id`, skip when no shape rows match,
ensure the `routeDirShapes[route][dir]` slot exists, then either skip a
`processedShapeKeys` duplicate or record the key and push the simplified
line. -/
def stepTrip (shapes : List ShapeRow) (st : BuildState) (t : TripRow) : BuildState :=
  if !(truthy t.route_id && truthy t.shape_id) then st
  else
    let r := t.route_id.getD ""
    let s := t.shape_id.getD ""
    if (groupSorted shapes s).isEmpty then st
    else
      let d := t.direction_id.getD "0"
      let rds2 := ensureSlot st.rds r d
      let key := keyOf3 r d s
      if st.processed.contains key then { st with rds := rds2 }
      else
        { processed := key :: st.processed,
          rds := pushLine rds2 r d (lineOf shapes s) }

/-- The `routeDirShapes` dictionary after the whole trips loop. -/
def buildRds (shapes : List ShapeRow) (trips : List TripRow) : Rds :=
  (trips.foldl (stepTrip shapes) (BuildState.mk [] [])).rds

/-- One GeoJSON feature of the snapshot (the constant `"Feature"` /
`"MultiLineString"` type tags carry no information and are omitted). -/
structure Feature where
  route_id : String
  direction_id : String
  coordinates : List (List Coord)
deriving DecidableEq

/-- The cached snapshot: a feature collection. -/
structure FeatureCollection where
  features : List Feature
deriving DecidableEq

/-- The nested `for ... in` loops that turn `routeDirShapes` into GeoJSON
features. -/
def featuresOf (rds : Rds) : List Feature :=
  (rds.map (fun p => p.2.map (fun q => Feature.mk p.1 q.1 q.2))).join

/-- `buildShapesCache` from `src/backend/server.js` as a pure data
transformation from the two tables to the snapshot value; the final
assignment to `cachedShapes` is the cache `Replace`, modelled separately
by `runCache`. -/
def buildShapesCache (shapes : List ShapeRow) (trips : List TripRow) : FeatureCollection :=
  FeatureCollection.mk (featuresOf (buildRds shapes trips))

/-- The build including the two `readGTFSFile` calls of
`src/backend/gtfsParser.js`, which throw when a table cannot be read; the
exception propagates out of `buildShapesCache` uncaught. -/
def buildShapesCacheE (shapesR : Except String (List ShapeRow))
    (tripsR : Except String (List TripRow)) : Except String FeatureCollection := do
  let shapes ← shapesR
  let trips ← tripsR
  pure (buildShapesCache shapes trips)

/-- The operations touching the module variable `cachedShapes`: the single
assignment at the end of `buildShapesCache` (the `Replace`) and the reads
performed by the `/api/shapes_merged` handler (which never writes). -/
inductive CacheOp where
  | replace (snapshot : FeatureCollection)
  | read
deriving DecidableEq

/-- Effect of one operation on `cachedShapes`: the assignment overwrites
the reference, a read leaves it untouched. -/
def cacheStep (st : Option FeatureCollection) : CacheOp → Option FeatureCollection
  | CacheOp.replace s => some s
  | CacheOp.read => st

/-- `cachedShapes` after a sequence of operations, starting from `null`. -/
def runCache (ops : List CacheOp) : Option FeatureCollection :=
  ops.foldl cacheStep none

/-- The `/api/shapes_merged` response: HTTP 500 with the body
`{error: "Shapes not loaded"}` while `cachedShapes` is `null`, otherwise
the cached collection itself. -/
inductive ShapesResp where
  | notLoaded
  | payload (snapshot : FeatureCollection)
deriving DecidableEq

/-- The read path of the `/api/shapes_merged` handler. -/
def shapesMergedHandler (st : Option FeatureCollection) : ShapesResp :=
  match st with
  | none => ShapesResp.notLoaded
  | some s => ShapesResp.payload s

/-- The decoded `vehicle.position` message (latitude and longitude are
required by the wire format once a position is present; bearing is
optional). -/
structure GtfsPosition where
  latitude : ℚ
  longitude : ℚ
  bearing : Option ℚ
deriving DecidableEq

/-- The embedded vehicle descriptor (`v.vehicle`), carrying the optional
vehicle id used as the second resolution step. -/
structure GtfsVehicleDesc where
  id : Option String
deriving DecidableEq

/-- The trip descriptor (`v.trip`). -/
structure GtfsTripDesc where
  routeId : Option String
  tripId : Option String
deriving DecidableEq

/-- The decoded `entity.vehicle` payload. -/
structure GtfsVehicle where
  position : Option GtfsPosition
  vehicle : Option GtfsVehicleDesc
  trip : Option GtfsTripDesc
  timestamp : Option ℤ
deriving DecidableEq

/-- One decoded feed entity; `id` is `none` when the entity id is nullish. -/
structure FeedEntity where
  id : Option String
  vehicle : Option GtfsVehicle
deriving DecidableEq

/-- The id field of a pushed vehicle record: either a decoded string id or
the number produced by the `Math.random()` fallback. -/
inductive VehicleId where
  | str (s : String)
  | num (q : ℚ)
deriving DecidableEq

/-- One record pushed into the handler's `vehicles` array. -/
structure VehicleRec where
  id : VehicleId
  lat : ℚ
  lon : ℚ
  bearing : Option ℚ
  timestamp : Option ℤ
  routeId : Option String
  tripId : Option String
deriving DecidableEq

/-- The entity loop of the `/api/vehicles` handler for one decoded feed:
entities without `vehicle` or without `vehicle.position` are skipped, the
id is resolved as `ent.id ?? v.vehicle?.id ?? Math.random()` (the random
oracle `rnd` is consumed at index `c` only when both ids are nullish,
because `??` short-circuits).  Returns the pushed records in entity order
and the next unconsumed oracle index. -/
def pushEntities (rnd : ℕ → ℚ) : List FeedEntity → ℕ → List VehicleRec × ℕ
  | [], c => ([], c)
  | e :: es, c =>
    match e.vehicle with
    | none => pushEntities rnd es c
    | some v =>
      match v.position with
      | none => pushEntities rnd es c
      | some pos =>
        let idc : VehicleId × ℕ :=
          match e.id with
          | some s => (VehicleId.str s, c)
          | none =>
            match v.vehicle.bind GtfsVehicleDesc.id with
            | some s => (VehicleId.str s, c)
            | none => (VehicleId.num (rnd c), c + 1)
        let rest := pushEntities rnd es idc.2
        (VehicleRec.mk idc.1 pos.latitude pos.longitude pos.bearing v.timestamp
            (v.trip.bind GtfsTripDesc.routeId) (v.trip.bind GtfsTripDesc.tripId) :: rest.1,
         rest.2)

/-- The settled outcome of one feed task: the decoded entity list on
success, or the message of the caught exception (network failure, the
`throw new Error("HTTP " + status)` on a non-ok response, or a decode
failure). -/
inductive FetchOutcome where
  | ok (entities : List FeedEntity)
  | err (msg : String)
deriving DecidableEq

/-- One configured feed source together with its settled outcome for the
poll under consideration. -/
structure FeedSource where
  url : String
  outcome : FetchOutcome
deriving DecidableEq

/-- What one `Collect` call leaves behind: the shared `vehicles` array and
the `console.error` lines (url, message) — the only place per-source
failures are recorded; they are not part of the HTTP response. -/
structure CollectResult where
  vehicles : List VehicleRec
  errorLog : List (String × String)
deriving DecidableEq

/-- The shared-state aggregation inside `Promise.all`: each task, when it
settles, either pushes its whole entity block onto the shared `vehicles`
array (the inner `for` loop has no await, so one feed's pushes are
contiguous) or logs one `console.error` line.  `sched` is the settlement
order over source indices. -/
def collectGo (rnd : ℕ → ℚ) (sources : List FeedSource) :
    List ℕ → List VehicleRec → List (String × String) → ℕ → CollectResult
  | [], vs, lg, _ => CollectResult.mk vs lg
  | i :: rest, vs, lg, c =>
    match sources.get? i with
    | none => collectGo rnd sources rest vs lg c
    | some src =>
      match src.outcome with
      | FetchOutcome.ok ents =>
        let p := pushEntities rnd ents c
        collectGo rnd sources rest (vs ++ p.1) lg p.2
      | FetchOutcome.err m => collectGo rnd sources rest vs (lg ++ [(src.url, m)]) c

/-- The whole `Promise.all` aggregation of the `/api/vehicles` handler. -/
def collectVehicles (rnd : ℕ → ℚ) (sources : List FeedSource) (sched : List ℕ) : CollectResult :=
  collectGo rnd sources sched [] [] 0

/-- The `/api/vehicles` response body: the code answers
`res.json({ok: true, vehicles})` whenever at least one feed is configured
— the inner catch absorbs every per-source failure, so `Promise.all`
never rejects and the 500 branch of the outer catch is not taken — and a
distinct configuration-error body when `FEED_URLS` is empty. -/
inductive VehiclesResp where
  | noFeeds
  | okBody (vehicles : List VehicleRec)
deriving DecidableEq

/-- The `/api/vehicles` handler. -/
def vehiclesHandler (rnd : ℕ → ℚ) (sources : List FeedSource) (sched : List ℕ) : VehiclesResp :=
  if sources.isEmpty then VehiclesResp.noFeeds
  else VehiclesResp.okBody (collectVehicles rnd sources sched).vehicles

/-- The per-source contiguous blocks, in settlement order, that
`collectVehicles` concatenates: the restructured form used to state the
ordering property. -/
def schedBlocks (rnd : ℕ → ℚ) (sources : List FeedSource) : List ℕ → ℕ → List VehicleRec
  | [], _ => []
  | i :: rest, c =>
    match sources.get? i with
    | none => schedBlocks rnd sources rest c
    | some src =>
      match src.outcome with
      | FetchOutcome.ok ents =>
        let p := pushEntities rnd ents c
        p.1 ++ schedBlocks rnd sources rest p.2
      | FetchOutcome.err _ => schedBlocks rnd sources rest c

/-- A pushed record without its id, used to compare aggregations whose
synthesized ids depend on the settlement order. -/
structure VehicleData where
  lat : ℚ
  lon : ℚ
  bearing : Option ℚ
  timestamp : Option ℤ
  routeId : Option String
  tripId : Option String
deriving DecidableEq

/-- Forget the id of a pushed record. -/
def stripId (v : VehicleRec) : VehicleData :=
  VehicleData.mk v.lat v.lon v.bearing v.timestamp v.routeId v.tripId

/-- The id-free data of one entity if the handler pushes it (`none` when
the entity lacks a vehicle or a position and is skipped). -/
def entityData (e : FeedEntity) : Option VehicleData :=
  match e.vehicle with
  | none => none
  | some v =>
    match v.position with
    | none => none
    | some pos =>
      some (VehicleData.mk pos.latitude pos.longitude pos.bearing v.timestamp
        (v.trip.bind GtfsTripDesc.routeId) (v.trip.bind GtfsTripDesc.tripId))

/-- The `console.error` line a failing source contributes (`none` for a
succeeding source). -/
def errEntry (s : FeedSource) : Option (String × String) :=
  match s.outcome with
  | FetchOutcome.ok _ => none
  | FetchOutcome.err m => some (s.url, m)

/-- The id-free records a source contributes (empty for a failing one). -/
def okData (s : FeedSource) : List VehicleData :=
  match s.outcome with
  | FetchOutcome.ok ents => ents.filterMap entityData
  | FetchOutcome.err _ => []

/-- The synthesized-placeholder component of a pushed id. -/
def numIdOf (v : VehicleRec) : Option ℚ :=
  match v.id with
  | VehicleId.num q => some q
  | VehicleId.str _ => none

/-- How many entities of a feed take the `Math.random()` fallback: those
with a position but with both the entity id and the embedded vehicle id
nullish. -/
def consumedCount (ents : List FeedEntity) : ℕ :=
  (ents.filter (fun e =>
    match e.vehicle with
    | none => false
    | some v =>
      match v.position with
      | none => false
      | some _ => e.id.isNone && (v.vehicle.bind GtfsVehicleDesc.id).isNone)).length

/-- Settling time of the `Promise.all` join: each per-source task settles
after its own network duration — `fetch(url)` is issued with no timeout,
abort signal or any other bound — and the handler awaits every task, so
the aggregation settles exactly when the slowest task does. -/
def collectSettleTime (durations : List ℚ) : ℚ := durations.foldr max 0

/-- The guard of the trips loop: truthy `route_id` and `shape_id` and at
least one matching shape row. -/
def tripOk (shapes : List ShapeRow) (t : TripRow) : Bool :=
  truthy t.route_id && truthy t.shape_id &&
    !(groupSorted shapes (t.shape_id.getD "")).isEmpty

/-- The subsequence of the trip table that survives the guard and the
`processedShapeKeys` deduplication, threading the key set exactly as the
loop does. -/
def keptSub (shapes : List ShapeRow) (processed : List String) : List TripRow → List TripRow
  | [] => []
  | t :: ts =>
    if tripOk shapes t && !(processed.contains (tripKey t)) then
      t :: keptSub shapes (tripKey t :: processed) ts
    else keptSub shapes processed ts

/-- The `routeDirShapes[r][d]` array (empty when the slot is absent). -/
def linesAt (rds : Rds) (r d : String) : List (List Coord) :=
  (aget ((aget rds r).getD []) d).getD []

/-- The `(route_id, direction_id, shape_id)` triple a trip row carries,
with the direction resolved as the code resolves it (`?? "0"`); a row
whose `route_id` or `shape_id` is falsy carries no triple. -/
def tripleOf (t : TripRow) : Option (String × String × String) :=
  if truthy t.route_id && truthy t.shape_id then
    some (t.route_id.getD "", t.direction_id.getD "0", t.shape_id.getD "")
  else none

/-- The `shape_id` of a trip as the code resolves it for lookups. -/
def sidOf (t : TripRow) : String := t.shape_id.getD ""

/-- The `(route, direction)` slot a trip pushes into. -/
def bucketOf (t : TripRow) : String × String :=
  (t.route_id.getD "", t.direction_id.getD "0")

/-- Well-formedness of the nested dictionary: route keys are distinct and
so are the direction keys inside every route entry (JS object keys are
unique by construction). -/
def keysOk (rds : Rds) : Prop :=
  (rds.map Prod.fst).Nodup ∧ ∀ p ∈ rds, (p.2.map Prod.fst).Nodup

/-- The rounded-coordinate view of a sorted shape row. -/
def rowCoord (p : ShapeRow) : Coord := (jfix5 p.shape_pt_lon, jfix5 p.shape_pt_lat)

/-- Whether a source's task ended in the catch block. -/
def isErrSource (s : FeedSource) : Bool :=
  match s.outcome with
  | FetchOutcome.err _ => true
  | FetchOutcome.ok _ => false

/-- A constant oracle standing in for `Math.random()` in concrete runs
(a genuine `Math.random()` value can likewise repeat). -/
def demoRnd : ℕ → ℚ := fun _ => 37

/-- A decoded entity with an entity id and a position. -/
def entA : FeedEntity :=
  FeedEntity.mk (some "a")
    (some (GtfsVehicle.mk (some (GtfsPosition.mk 1 2 none)) none none none))

/-- A second decoded entity with an entity id and a position. -/
def entB : FeedEntity :=
  FeedEntity.mk (some "b")
    (some (GtfsVehicle.mk (some (GtfsPosition.mk 3 4 none)) none none none))

/-- A decoded entity with a position but no id anywhere: it takes the
`Math.random()` fallback. -/
def entNoId : FeedEntity :=
  FeedEntity.mk none
    (some (GtfsVehicle.mk (some (GtfsPosition.mk 5 6 none)) none none none))

/-- A succeeding source delivering `entA`. -/
def srcA : FeedSource := FeedSource.mk "https://feeds.example/1" (FetchOutcome.ok [entA])

/-- A succeeding source delivering `entB`. -/
def srcB : FeedSource := FeedSource.mk "https://feeds.example/2" (FetchOutcome.ok [entB])

/-- A source whose fetch settled in the catch block with an HTTP error. -/
def srcFail1 : FeedSource := FeedSource.mk "https://feeds.example/2" (FetchOutcome.err "HTTP 500")

/-- A second failing source. -/
def srcFail2 : FeedSource := FeedSource.mk "https://feeds.example/3" (FetchOutcome.err "HTTP 503")

/-- A source whose fetch eventually succeeds after an arbitrarily long
wait — nothing in the handler bounds it. -/
def srcSlow : FeedSource := FeedSource.mk "https://feeds.example/slow" (FetchOutcome.ok [entA])

/-- The shape table of the spec's concrete scenario: shape `S1` with its
two points listed out of sequence order. -/
def demoShapes : List ShapeRow :=
  [ShapeRow.mk "S1" (some 2) (some (-74)) (some (407/10)),
   ShapeRow.mk "S1" (some 1) (some (-7401/100)) (some (4071/100))]

/-- The trip table of the spec's concrete scenario. -/
def demoTrips : List TripRow := [TripRow.mk (some "A") (some "S1") (some "0")]

/-- A shape whose first point's longitude has six decimal places. -/
def roundShapes : List ShapeRow :=
  [ShapeRow.mk "S1" (some 1) (some (6/1000000)) (some 0),
   ShapeRow.mk "S1" (some 2) (some 1) (some 1)]

/-- Two points whose longitudes agree through the fifth decimal place and
differ only beyond it, straddling the rounding boundary of `toFixed(5)`. -/
def quantShapes : List ShapeRow :=
  [ShapeRow.mk "S1" (some 1) (some (4/1000000)) (some 0),
   ShapeRow.mk "S1" (some 2) (some (6/1000000)) (some 1)]

/-- A shape table whose first row has a non-numeric longitude (so
`Number(...)` produced `NaN`). -/
def nanShapes : List ShapeRow :=
  [ShapeRow.mk "S1" (some 1) none (some (407/10)),
   ShapeRow.mk "S1" (some 2) (some 1) (some 2)]

/-- A snapshot value used to exercise the cache contract. -/
def demoSnapshot : FeatureCollection :=
  FeatureCollection.mk [Feature.mk "A" "0" [[(some 1, some 2)]]]

/-- An injective stand-in for `Math.random()`: a random source that
happens to never repeat a value. -/
def idRnd : ℕ → ℚ := fun n => (n : ℚ)


theorem aget_aset (m : List (String × α)) (k k' : String) (v : α) :
    aget (aset m k v) k' = if k' = k then some v else aget m k' := by
  induction m with
  | nil =>
    simp only [aset, aget]
    by_cases h : k' = k
    · simp [h]
    · simp only [beq_iff_eq, if_neg h, if_neg (fun hh : k = k' => h hh.symm)]
  | cons p rest ih =>
    by_cases hp : p.1 = k
    · simp only [aset, beq_iff_eq, hp, if_true]
      by_cases h : k' = k
      · simp [aget, h]
      · simp only [aget, beq_iff_eq, if_neg h, if_neg (fun hh : k = k' => h hh.symm)]
        rw [if_neg (fun hh : p.1 = k' => h (hp ▸ hh).symm)]
    · simp only [aset, beq_iff_eq, hp, if_false]
      by_cases hpk : p.1 = k'
      · rw [if_neg (fun h : k' = k => hp (hpk.symm ▸ h))]
        simp [aget, hpk]
      · simp [aget, hpk, ih]

theorem linesAt_ensureSlot (rds : Rds) (r0 d0 r d : String) :
    linesAt (ensureSlot rds r0 d0) r d = linesAt rds r d := by
  rcases hm : aget rds r0 with _ | dm
  · rcases hr : decide (r = r0) with _ | _
    · have hr' : ¬ r = r0 := of_decide_eq_false hr
      simp [ensureSlot, linesAt, aget_aset, hm, hr', aget]
    · have hr' : r = r0 := of_decide_eq_true hr
      subst hr'
      simp [ensureSlot, linesAt, aget_aset, hm, aget]
      by_cases hd : d = d0 <;> simp [hd]
  · rcases hd : aget dm d0 with _ | lines
    · rcases hr : decide (r = r0) with _ | _
      · have hr' : ¬ r = r0 := of_decide_eq_false hr
        simp [ensureSlot, linesAt, aget_aset, hm, hd, hr']
      · have hr' : r = r0 := of_decide_eq_true hr
        subst hr'
        simp [ensureSlot, linesAt, aget_aset, hm, hd]
        by_cases hdd : d = d0 <;> simp [hdd, hd]
    · simp [ensureSlot, linesAt, hm, hd]

theorem linesAt_pushLine (rds : Rds) (r0 d0 r d : String) (line : List Coord) :
    linesAt (pushLine rds r0 d0 line) r d =
      if r = r0 ∧ d = d0 then linesAt rds r d ++ [line] else linesAt rds r d := by
  by_cases hr : r = r0
  · subst hr
    by_cases hd : d = d0
    · subst hd
      simp [pushLine, linesAt, aget_aset]
    · simp [pushLine, linesAt, aget_aset, hd]
  · simp [pushLine, linesAt, aget_aset, hr]

theorem stepTrip_not_ok (shapes : List ShapeRow) (st : BuildState) (t : TripRow)
    (h : tripOk shapes t = false) : stepTrip shapes st t = st := by
  unfold stepTrip
  unfold tripOk at h
  cases h1 : (truthy t.route_id && truthy t.shape_id) with
  | false => simp [h1]
  | true =>
    rw [h1] at h
    simp only [Bool.true_and] at h
    simp only [h1, Bool.not_true, Bool.false_eq_true, if_false]
    rw [Bool.not_eq_false'] at h
    simp [h, sidOf]

theorem stepTrip_processed (shapes : List ShapeRow) (st : BuildState) (t : TripRow) :
    (stepTrip shapes st t).processed =
      if (tripOk shapes t && !(st.processed.contains (tripKey t))) = true then
        tripKey t :: st.processed
      else st.processed := by
  unfold stepTrip tripOk
  cases h1 : (truthy t.route_id && truthy t.shape_id) with
  | false => simp [h1]
  | true =>
    simp only [h1, Bool.not_true, Bool.false_eq_true, if_false, Bool.true_and]
    cases h2 : (groupSorted shapes (t.shape_id.getD "")).isEmpty with
    | true => simp [h2]
    | false =>
      simp only [h2, Bool.not_false, Bool.false_eq_true, if_false, Bool.true_and]
      cases h3 : st.processed.contains (tripKey t) with
      | true =>
        have hmem : keyOf3 (t.route_id.getD "") (t.direction_id.getD "0")
            (t.shape_id.getD "") ∈ st.processed := by simpa [tripKey] using h3
        simp [hmem, h3]
      | false =>
        have hmem : ¬ keyOf3 (t.route_id.getD "") (t.direction_id.getD "0")
            (t.shape_id.getD "") ∈ st.processed := by simpa [tripKey] using h3
        simp [hmem, h3, tripKey]

theorem stepTrip_linesAt (shapes : List ShapeRow) (st : BuildState) (t : TripRow)
    (r d : String) :
    linesAt (stepTrip shapes st t).rds r d =
      linesAt st.rds r d ++
        (if (tripOk shapes t && !(st.processed.contains (tripKey t))) = true
            ∧ bucketOf t = (r, d) then [lineOf shapes (sidOf t)] else []) := by
  unfold stepTrip tripOk
  cases h1 : (truthy t.route_id && truthy t.shape_id) with
  | false => simp [h1]
  | true =>
    simp only [h1, Bool.not_true, Bool.false_eq_true, if_false, Bool.true_and]
    cases h2 : (groupSorted shapes (t.shape_id.getD "")).isEmpty with
    | true => simp [h2]
    | false =>
      simp only [h2, Bool.not_false, Bool.false_eq_true, if_false, Bool.true_and]
      cases h3 : st.processed.contains (tripKey t) with
      | true =>
        have hmem : keyOf3 (t.route_id.getD "") (t.direction_id.getD "0")
            (t.shape_id.getD "") ∈ st.processed := by simpa [tripKey] using h3
        simp [hmem, h3, linesAt_ensureSlot]
      | false =>
        unfold tripKey at h3
        simp only [h3, Bool.not_false, Bool.and_true, Bool.false_eq_true, if_false]
        rw [linesAt_pushLine, linesAt_ensureSlot]
        by_cases hb : bucketOf t = (r, d)
        · have hr : r = t.route_id.getD "" := congrArg Prod.fst hb.symm
          have hd : d = t.direction_id.getD "0" := congrArg Prod.snd hb.symm
          simp [hr, hd, sidOf, hb]
        · have : ¬ (r = t.route_id.getD "" ∧ d = t.direction_id.getD "0") := by
            intro hc
            exact hb (by simp [bucketOf, hc.1.symm, hc.2.symm])
          simp [this, hb]

theorem linesAt_foldl (shapes : List ShapeRow) (ts : List TripRow) (st : BuildState)
    (r d : String) :
    linesAt ((ts.foldl (stepTrip shapes) st).rds) r d =
      linesAt st.rds r d ++
        (keptSub shapes st.processed ts).filterMap
          (fun t => if bucketOf t = (r, d) then some (lineOf shapes (sidOf t)) else none) := by
  induction ts generalizing st with
  | nil => simp [keptSub]
  | cons t ts ih =>
    rw [List.foldl_cons, ih]
    cases hc : (tripOk shapes t && !(st.processed.contains (tripKey t))) with
    | false =>
      rw [stepTrip_processed]
      rw [stepTrip_linesAt]
      simp only [keptSub, hc, Bool.false_eq_true, if_false, false_and]
      simp
    | true =>
      rw [stepTrip_processed]
      rw [stepTrip_linesAt]
      simp only [keptSub, hc, if_true, true_and]
      by_cases hb : bucketOf t = (r, d)
      · simp [hb, List.filterMap_cons]
      · simp [hb, List.filterMap_cons]

theorem keptSub_not_contains (shapes : List ShapeRow) :
    ∀ (ts : List TripRow) (processed : List String) (t : TripRow),
      t ∈ keptSub shapes processed ts → processed.contains (tripKey t) = false := by
  intro ts
  induction ts with
  | nil => intro processed t h; simp [keptSub] at h
  | cons t0 ts ih =>
    intro processed t h
    simp only [keptSub] at h
    split at h
    · next hcond =>
      rcases List.mem_cons.mp h with rfl | h'
      · have := (Bool.and_eq_true _ _).mp hcond
        simpa using this.2
      · have h2 := ih (tripKey t0 :: processed) t h'
        simp only [List.contains_cons, Bool.or_eq_false_iff] at h2
        exact h2.2
    · exact ih processed t h

theorem keptSub_keys_nodup (shapes : List ShapeRow) :
    ∀ (ts : List TripRow) (processed : List String),
      ((keptSub shapes processed ts).map tripKey).Nodup := by
  intro ts
  induction ts with
  | nil => intro processed; simp [keptSub]
  | cons t0 ts ih =>
    intro processed
    simp only [keptSub]
    split
    · next hcond =>
      simp only [List.map_cons, List.nodup_cons]
      refine ⟨?_, ih _⟩
      intro hmem
      rw [List.mem_map] at hmem
      obtain ⟨t, ht, hkey⟩ := hmem
      have h2 := keptSub_not_contains shapes ts (tripKey t0 :: processed) t ht
      simp only [List.contains_cons, Bool.or_eq_false_iff, beq_eq_false_iff_ne] at h2
      exact h2.1 hkey
    · exact ih _

theorem keptSub_ok (shapes : List ShapeRow) :
    ∀ (ts : List TripRow) (processed : List String) (t : TripRow),
      t ∈ keptSub shapes processed ts → tripOk shapes t = true := by
  intro ts
  induction ts with
  | nil => intro processed t h; simp [keptSub] at h
  | cons t0 ts ih =>
    intro processed t h
    simp only [keptSub] at h
    split at h
    · next hcond =>
      rcases List.mem_cons.mp h with rfl | h'
      · exact ((Bool.and_eq_true _ _).mp hcond).1
      · exact ih _ t h'
    · exact ih _ t h

theorem tripleOf_some (t : TripRow) (r d s : String) (h : tripleOf t = some (r, d, s)) :
    truthy t.route_id = true ∧ truthy t.shape_id = true ∧
      t.route_id.getD "" = r ∧ t.direction_id.getD "0" = d ∧ t.shape_id.getD "" = s := by
  unfold tripleOf at h
  split at h
  · next hc =>
    have hc' := (Bool.and_eq_true _ _).mp hc
    simp only [Option.some.injEq, Prod.mk.injEq] at h
    exact ⟨hc'.1, hc'.2, h.1, h.2.1, h.2.2⟩
  · simp at h

theorem tripKey_of_triple (t : TripRow) (r d s : String) (h : tripleOf t = some (r, d, s)) :
    tripKey t = keyOf3 r d s := by
  obtain ⟨_, _, hr, hd, hs⟩ := tripleOf_some t r d s h
  simp [tripKey, hr, hd, hs]

theorem tripOk_of_triple (shapes : List ShapeRow) (u : TripRow) (r d s : String)
    (hu : tripleOf u = some (r, d, s))
    (hg : (groupSorted shapes s).isEmpty = false) : tripOk shapes u = true := by
  obtain ⟨h1, h2, _, _, hs⟩ := tripleOf_some u r d s hu
  simp [tripOk, h1, h2, hs, hg]

theorem tripOk_group (shapes : List ShapeRow) (t : TripRow) (h : tripOk shapes t = true) :
    (groupSorted shapes (t.shape_id.getD "")).isEmpty = false := by
  have := (Bool.and_eq_true _ _).mp h
  simpa using this.2

theorem keptSub_find (shapes : List ShapeRow) :
    ∀ (ts : List TripRow) (processed : List String) (t : TripRow) (r d s : String),
      t ∈ keptSub shapes processed ts → tripleOf t = some (r, d, s) →
      ts.find? (fun u => decide (tripleOf u = some (r, d, s))) = some t := by
  intro ts
  induction ts with
  | nil => intro processed t r d s h; simp [keptSub] at h
  | cons t0 ts ih =>
    intro processed t r d s h ht
    simp only [keptSub] at h
    split at h
    · next hcond =>
      rcases List.mem_cons.mp h with rfl | h'
      · rw [List.find?_cons_of_pos]
        simp [ht]
      · have hpred : tripleOf t0 ≠ some (r, d, s) := by
          intro hc
          have hk0 : tripKey t0 = keyOf3 r d s := tripKey_of_triple t0 r d s hc
          have hkt : tripKey t = keyOf3 r d s := tripKey_of_triple t r d s ht
          have h2 := keptSub_not_contains shapes ts (tripKey t0 :: processed) t h'
          simp only [List.contains_cons, Bool.or_eq_false_iff, beq_eq_false_iff_ne] at h2
          exact h2.1 (hkt.trans hk0.symm)
        rw [List.find?_cons_of_neg]
        · exact ih _ t r d s h' ht
        · simp [hpred]
    · next hcond =>
      have hpred : tripleOf t0 ≠ some (r, d, s) := by
        intro hc
        have hok0 : tripOk shapes t0 = true := by
          apply tripOk_of_triple shapes t0 r d s hc
        -- the shape group for s is nonempty because t itself is kept
          have hokt := keptSub_ok shapes ts processed t h
          have hst := (tripleOf_some t r d s ht).2.2.2.2
          have := tripOk_group shapes t hokt
          rwa [hst] at this
        have hcont : processed.contains (tripKey t0) = true := by
          cases hcc : processed.contains (tripKey t0) with
          | true => rfl
          | false =>
            refine absurd ?_ hcond
            rw [hok0, hcc]
            rfl
        have hk0 : tripKey t0 = keyOf3 r d s := tripKey_of_triple t0 r d s hc
        have hkt : tripKey t = keyOf3 r d s := tripKey_of_triple t r d s ht
        have h2 := keptSub_not_contains shapes ts processed t h
        rw [hkt, ← hk0] at h2
        rw [h2] at hcont
        exact Bool.false_ne_true hcont
      rw [List.find?_cons_of_neg]
      · exact ih _ t r d s h ht
      · simp [hpred]

theorem length_filter_le_one {α β : Type} (l : List α) (f : α → β) (P : α → Bool) (b : β)
    (hnd : (l.map f).Nodup) (hP : ∀ a ∈ l, P a = true → f a = b) :
    (l.filter P).length ≤ 1 := by
  induction l with
  | nil => simp
  | cons a l ih =>
    simp only [List.map_cons, List.nodup_cons] at hnd
    by_cases hPa : P a = true
    · rw [List.filter_cons_of_pos hPa]
      have hfa : f a = b := hP a (List.mem_cons_self a l) hPa
      have hnil : l.filter P = [] := by
        rw [List.filter_eq_nil_iff]
        intro x hx hPx
        have hfx : f x = b := hP x (List.mem_cons_of_mem a hx) hPx
        exact hnd.1 (hfa ▸ hfx ▸ List.mem_map_of_mem f hx)
      simp [hnil]
    · rw [List.filter_cons_of_neg hPa]
      exact ih hnd.2 (fun x hx => hP x (List.mem_cons_of_mem a hx))

theorem mem_aset (m : List (String × α)) (k : String) (v : α) (q : String × α)
    (h : q ∈ aset m k v) : q = (k, v) ∨ q ∈ m := by
  induction m with
  | nil => simp [aset] at h; simp [h]
  | cons p rest ih =>
    simp only [aset] at h
    split at h
    · rcases List.mem_cons.mp h with rfl | h'
      · exact Or.inl rfl
      · exact Or.inr (List.mem_cons_of_mem p h')
    · rcases List.mem_cons.mp h with rfl | h'
      · exact Or.inr (List.mem_cons_self _ _)
      · rcases ih h' with h'' | h''
        · exact Or.inl h''
        · exact Or.inr (List.mem_cons_of_mem p h'')

theorem mem_map_fst_aset (m : List (String × α)) (k : String) (v : α) (x : String)
    (h : x ∈ (aset m k v).map Prod.fst) : x = k ∨ x ∈ m.map Prod.fst := by
  rw [List.mem_map] at h
  obtain ⟨q, hq, rfl⟩ := h
  rcases mem_aset m k v q hq with rfl | h'
  · exact Or.inl rfl
  · exact Or.inr (List.mem_map_of_mem Prod.fst h')

theorem aset_keys_nodup (m : List (String × α)) (k : String) (v : α)
    (h : (m.map Prod.fst).Nodup) : ((aset m k v).map Prod.fst).Nodup := by
  induction m with
  | nil => simp [aset]
  | cons p rest ih =>
    simp only [List.map_cons, List.nodup_cons] at h
    simp only [aset]
    split
    · next hp =>
      rw [beq_iff_eq] at hp
      simp only [List.map_cons, List.nodup_cons]
      exact ⟨hp ▸ h.1, h.2⟩
    · next hp =>
      rw [beq_iff_eq] at hp
      simp only [List.map_cons, List.nodup_cons]
      refine ⟨?_, ih h.2⟩
      intro hmem
      rcases mem_map_fst_aset rest k v p.1 hmem with rfl | h'
      · exact hp rfl
      · exact h.1 h'

theorem aget_of_mem (m : List (String × α)) (k : String) (v : α)
    (hnd : (m.map Prod.fst).Nodup) (h : (k, v) ∈ m) : aget m k = some v := by
  induction m with
  | nil => simp at h
  | cons p rest ih =>
    simp only [List.map_cons, List.nodup_cons] at hnd
    rcases List.mem_cons.mp h with rfl | h'
    · simp [aget]
    · have hk : k ∈ rest.map Prod.fst := by
        rw [List.mem_map]
        exact ⟨(k, v), h', rfl⟩
      have hne : p.1 ≠ k := fun hc => hnd.1 (hc ▸ hk)
      simp [aget, hne, ih hnd.2 h']

theorem aget_mem (m : List (String × α)) (k : String) (v : α)
    (h : aget m k = some v) : (k, v) ∈ m := by
  induction m with
  | nil => simp [aget] at h
  | cons p rest ih =>
    simp only [aget] at h
    split at h
    · next hp =>
      rw [beq_iff_eq] at hp
      rw [Option.some.injEq] at h
      have : p = (k, v) := by
        cases p
        simp only [Prod.mk.injEq]
        exact ⟨hp, h⟩
      exact this ▸ List.mem_cons_self _ _
    · exact List.mem_cons_of_mem p (ih h)

theorem keysOk_aset_inner (rds : Rds) (r : String) (dm : List (String × List (List Coord)))
    (h : keysOk rds) (hdm : (dm.map Prod.fst).Nodup) : keysOk (aset rds r dm) := by
  refine ⟨aset_keys_nodup rds r dm h.1, ?_⟩
  intro p hp
  rcases mem_aset rds r dm p hp with rfl | h'
  · exact hdm
  · exact h.2 p h'

theorem keysOk_getD_inner (rds : Rds) (r : String) (h : keysOk rds) :
    (((aget rds r).getD []).map Prod.fst).Nodup := by
  rcases hm : aget rds r with _ | dm
  · simp
  · simpa using h.2 (r, dm) (aget_mem rds r dm hm)

theorem keysOk_ensureSlot (rds : Rds) (r d : String) (h : keysOk rds) :
    keysOk (ensureSlot rds r d) := by
  unfold ensureSlot
  split
  · have h1 : keysOk (aset rds r []) := keysOk_aset_inner rds r [] h (by simp)
    dsimp only
    split
    · exact keysOk_aset_inner _ r _ h1 (aset_keys_nodup _ d [] (keysOk_getD_inner _ r h1))
    · exact h1
  · dsimp only
    split
    · exact keysOk_aset_inner _ r _ h (aset_keys_nodup _ d [] (keysOk_getD_inner _ r h))
    · exact h

theorem keysOk_pushLine (rds : Rds) (r d : String) (line : List Coord) (h : keysOk rds) :
    keysOk (pushLine rds r d line) := by
  unfold pushLine
  exact keysOk_aset_inner _ r _ h (aset_keys_nodup _ d _ (keysOk_getD_inner _ r h))

theorem keysOk_stepTrip (shapes : List ShapeRow) (st : BuildState) (t : TripRow)
    (h : keysOk st.rds) : keysOk (stepTrip shapes st t).rds := by
  unfold stepTrip
  cases h1 : (truthy t.route_id && truthy t.shape_id) with
  | false => simpa [h1] using h
  | true =>
    simp only [h1, Bool.not_true, Bool.false_eq_true, if_false]
    cases h2 : (groupSorted shapes (t.shape_id.getD "")).isEmpty with
    | true => simpa [h2] using h
    | false =>
      simp only [h2, Bool.false_eq_true, if_false]
      cases h3 : st.processed.contains (keyOf3 (t.route_id.getD "")
          (t.direction_id.getD "0") (t.shape_id.getD "")) with
      | true =>
        simp only [h3, if_true]
        exact keysOk_ensureSlot _ _ _ h
      | false =>
        simp only [h3, Bool.false_eq_true, if_false]
        exact keysOk_pushLine _ _ _ _ (keysOk_ensureSlot _ _ _ h)

theorem keysOk_foldl (shapes : List ShapeRow) (ts : List TripRow) :
    ∀ (st : BuildState), keysOk st.rds → keysOk ((ts.foldl (stepTrip shapes) st).rds) := by
  induction ts with
  | nil => intro st h; exact h
  | cons t ts ih =>
    intro st h
    rw [List.foldl_cons]
    exact ih _ (keysOk_stepTrip shapes st t h)

theorem keysOk_buildRds (shapes : List ShapeRow) (trips : List TripRow) :
    keysOk (buildRds shapes trips) := by
  unfold buildRds
  exact keysOk_foldl shapes trips (BuildState.mk [] []) ⟨by simp, by simp⟩

/-- Every feature's coordinate list is exactly the `routeDirShapes` slot
for its route and direction. -/
theorem features_coords (rds : Rds) (h : keysOk rds) (f : Feature)
    (hf : f ∈ featuresOf rds) :
    f.coordinates = linesAt rds f.route_id f.direction_id := by
  unfold featuresOf at hf
  rw [List.mem_join] at hf
  obtain ⟨flist, hflist, hfin⟩ := hf
  rw [List.mem_map] at hflist
  obtain ⟨p, hp, rfl⟩ := hflist
  rw [List.mem_map] at hfin
  obtain ⟨q, hq, rfl⟩ := hfin
  have h1 : aget rds p.1 = some p.2 := by
    refine aget_of_mem rds p.1 p.2 h.1 ?_
    simpa using hp
  have h2 : aget p.2 q.1 = some q.2 := by
    refine aget_of_mem p.2 q.1 q.2 (h.2 p hp) ?_
    simpa using hq
  simp [linesAt, h1, h2]

theorem getD_last_eq (l : List α) (d : α) (h : l ≠ []) :
    some (l.getD (l.length - 1) d) = l.getLast? := by
  rw [List.getLast?_eq_getElem?, List.getD_eq_getElem?_getD]
  have hlt : l.length - 1 < l.length := by
    cases l with
    | nil => exact absurd rfl h
    | cons a l => simp
  rw [List.getElem?_eq_getElem hlt]
  simp

/-- On the `highestQuality = true` path the code takes, simplification
keeps the first input point as the first output point. -/
theorem simplify_hq_head (points : List Pt) (tol : JsNum) (h : points ≠ []) :
    (simplify points tol true).head? = points.head? := by
  unfold simplify
  by_cases hl : points.length ≤ 2
  · simp [hl]
  · simp only [hl, if_false, if_true]
    unfold simplifyDouglasPeucker
    cases points with
    | nil => exact absurd rfl h
    | cons p ps => simp [List.getD]

/-- On the `highestQuality = true` path the code takes, simplification
keeps the last input point as the last output point. -/
theorem simplify_hq_getLast (points : List Pt) (tol : JsNum) (h : points ≠ []) :
    (simplify points tol true).getLast? = points.getLast? := by
  unfold simplify
  by_cases hl : points.length ≤ 2
  · simp [hl]
  · simp only [hl, if_false, if_true]
    unfold simplifyDouglasPeucker
    rw [show points.getD 0 noPt ::
        (simplifyDPStep points (jmul tol tol) points.length 0 (points.length - 1)
          ++ [points.getD (points.length - 1) noPt]) =
        (points.getD 0 noPt ::
          simplifyDPStep points (jmul tol tol) points.length 0 (points.length - 1))
          ++ [points.getD (points.length - 1) noPt] by simp]
    rw [List.getLast?_concat]
    exact getD_last_eq points noPt h

theorem lineOf_head (shapes : List ShapeRow) (sid : String)
    (h : groupSorted shapes sid ≠ []) :
    (lineOf shapes sid).head? = (groupSorted shapes sid).head?.map rowCoord := by
  unfold lineOf
  rw [List.head?_map, simplify_hq_head _ _ (by simpa using h), List.head?_map]
  cases (groupSorted shapes sid).head? <;> simp [rowCoord]

theorem lineOf_getLast (shapes : List ShapeRow) (sid : String)
    (h : groupSorted shapes sid ≠ []) :
    (lineOf shapes sid).getLast? = (groupSorted shapes sid).getLast?.map rowCoord := by
  unfold lineOf
  rw [List.getLast?_map, simplify_hq_getLast _ _ (by simpa using h), List.getLast?_map]
  cases (groupSorted shapes sid).getLast? <;> simp [rowCoord]

theorem collectGo_spec (rnd : ℕ → ℚ) (sources : List FeedSource) :
    ∀ (sched : List ℕ) (vs : List VehicleRec) (lg : List (String × String)) (c : ℕ),
      (collectGo rnd sources sched vs lg c).vehicles = vs ++ schedBlocks rnd sources sched c ∧
      (collectGo rnd sources sched vs lg c).errorLog =
        lg ++ sched.filterMap (fun i => (sources.get? i).bind errEntry) := by
  intro sched
  induction sched with
  | nil => intro vs lg c; simp [collectGo, schedBlocks]
  | cons i rest ih =>
    intro vs lg c
    cases hs : sources.get? i with
    | none =>
      simp only [collectGo, schedBlocks, hs, List.filterMap_cons, Option.none_bind]
      exact ih vs lg c
    | some src =>
      cases ho : src.outcome with
      | ok ents =>
        simp only [collectGo, schedBlocks, hs, ho, List.filterMap_cons, Option.some_bind,
          errEntry]
        rcases ih (vs ++ (pushEntities rnd ents c).1) lg (pushEntities rnd ents c).2 with
          ⟨h1, h2⟩
        exact ⟨by rw [h1, List.append_assoc], h2⟩
      | err m =>
        simp only [collectGo, schedBlocks, hs, ho, List.filterMap_cons, Option.some_bind,
          errEntry]
        rcases ih vs (lg ++ [(src.url, m)]) c with ⟨h1, h2⟩
        exact ⟨h1, by rw [h2, List.append_assoc]; rfl⟩

theorem range_filterMap_get (l : List α) (g : α → Option β) :
    (List.range l.length).filterMap (fun i => (l.get? i).bind g) = l.filterMap g := by
  induction l with
  | nil => simp
  | cons a l ih =>
    rw [List.length_cons, List.range_succ_eq_map, List.filterMap_cons, List.filterMap_map]
    have : ((fun i => ((a :: l).get? i).bind g) ∘ Nat.succ) = fun i => (l.get? i).bind g := by
      funext i
      simp
    rw [this, ih]
    cases hg : g a <;> simp [hg, List.filterMap_cons]

theorem pushEntities_stripId (rnd : ℕ → ℚ) :
    ∀ (ents : List FeedEntity) (c : ℕ),
      (pushEntities rnd ents c).1.map stripId = ents.filterMap entityData := by
  intro ents
  induction ents with
  | nil => intro c; simp [pushEntities]
  | cons e es ih =>
    intro c
    cases hv : e.vehicle with
    | none => simp [pushEntities, entityData, hv, List.filterMap_cons, ih]
    | some v =>
      cases hp : v.position with
      | none => simp [pushEntities, entityData, hv, hp, List.filterMap_cons, ih]
      | some pos =>
        simp only [pushEntities, entityData, hv, hp, List.filterMap_cons, List.map_cons]
        rw [ih]
        simp [stripId]

theorem pushEntities_counter (rnd : ℕ → ℚ) :
    ∀ (ents : List FeedEntity) (c : ℕ),
      (pushEntities rnd ents c).2 = c + consumedCount ents := by
  intro ents
  induction ents with
  | nil => intro c; simp [pushEntities, consumedCount]
  | cons e es ih =>
    intro c
    cases hv : e.vehicle with
    | none => simp [pushEntities, consumedCount, List.filter_cons, hv, ih]
    | some v =>
      cases hp : v.position with
      | none => simp [pushEntities, consumedCount, List.filter_cons, hv, hp, ih]
      | some pos =>
        cases hid : e.id with
        | some s =>
          simp [pushEntities, consumedCount, List.filter_cons, hv, hp, hid, ih]
        | none =>
          cases hvid : v.vehicle.bind GtfsVehicleDesc.id with
          | some s =>
            simp [pushEntities, consumedCount, List.filter_cons, hv, hp, hid, hvid, ih]
          | none =>
            simp only [pushEntities, hv, hp, hid, hvid]
            rw [ih]
            simp only [consumedCount, List.filter_cons, hv, hp, hid, hvid]
            simp [Nat.add_comm, Nat.add_assoc, Nat.add_left_comm]

theorem pushEntities_numIds (rnd : ℕ → ℚ) :
    ∀ (ents : List FeedEntity) (c : ℕ),
      (pushEntities rnd ents c).1.filterMap numIdOf =
        (List.range' c (consumedCount ents)).map rnd := by
  intro ents
  induction ents with
  | nil => intro c; simp [pushEntities, consumedCount]
  | cons e es ih =>
    intro c
    cases hv : e.vehicle with
    | none => simp [pushEntities, consumedCount, List.filter_cons, hv, ih]
    | some v =>
      cases hp : v.position with
      | none => simp [pushEntities, consumedCount, List.filter_cons, hv, hp, ih]
      | some pos =>
        cases hid : e.id with
        | some s =>
          simp only [pushEntities, hv, hp, hid, List.filterMap_cons, numIdOf]
          rw [ih]
          simp only [consumedCount, List.filter_cons, hv, hp, hid]
          simp [consumedCount]
        | none =>
          cases hvid : v.vehicle.bind GtfsVehicleDesc.id with
          | some s =>
            simp only [pushEntities, hv, hp, hid, hvid, List.filterMap_cons, numIdOf]
            rw [ih]
            simp only [consumedCount, List.filter_cons, hv, hp, hid, hvid]
            simp [consumedCount]
          | none =>
            simp only [pushEntities, hv, hp, hid, hvid, List.filterMap_cons, numIdOf]
            rw [ih]
            have hcc : consumedCount (e :: es) = consumedCount es + 1 := by
              simp [consumedCount, List.filter_cons, hv, hp, hid, hvid]
            rw [hcc, List.range'_succ]
            simp

theorem range_flatMap_get (l : List α) (g : α → List β) :
    (List.range l.length).flatMap (fun i => ((l.get? i).map g).getD []) = l.flatMap g := by
  induction l with
  | nil => simp
  | cons a l ih =>
    rw [List.length_cons, List.range_succ_eq_map, List.flatMap_cons, List.flatMap_map]
    simp only [Function.comp_def, List.get?_cons_succ, List.get?_cons_zero]
    rw [ih]
    simp

theorem filterMap_errEntry_length (sources : List FeedSource) :
    (sources.filterMap errEntry).length = (sources.filter isErrSource).length := by
  induction sources with
  | nil => simp
  | cons s rest ih =>
    cases ho : s.outcome with
    | ok ents =>
      simp only [List.filterMap_cons, List.filter_cons, errEntry, isErrSource, ho]
      simpa using ih
    | err m =>
      simp only [List.filterMap_cons, List.filter_cons, errEntry, isErrSource, ho]
      simpa using ih

theorem schedBlocks_stripId (rnd : ℕ → ℚ) (sources : List FeedSource) :
    ∀ (sched : List ℕ) (c : ℕ),
      (schedBlocks rnd sources sched c).map stripId =
        sched.flatMap (fun i => ((sources.get? i).map okData).getD []) := by
  intro sched
  induction sched with
  | nil => intro c; simp [schedBlocks]
  | cons i rest ih =>
    intro c
    cases hs : sources.get? i with
    | none =>
      rw [List.flatMap_cons]
      simp only [schedBlocks, hs, Option.map_none, Option.getD_none]
      simpa using ih c
    | some src =>
      cases ho : src.outcome with
      | ok ents =>
        rw [List.flatMap_cons]
        simp only [schedBlocks, hs, ho, List.map_append, Option.map_some, Option.getD_some]
        rw [ih, pushEntities_stripId]
        simp [okData, ho]
      | err m =>
        rw [List.flatMap_cons]
        simp only [schedBlocks, hs, ho, Option.map_some, Option.getD_some]
        rw [ih]
        simp [okData, ho]

theorem filterMap_if_eq_map_filter {α β γ : Type} [DecidableEq β]
    (l : List α) (f : α → γ) (g : α → β) (b : β) :
    l.filterMap (fun t => if g t = b then some (f t) else none) =
      (l.filter (fun t => decide (g t = b))).map f := by
  induction l with
  | nil => simp
  | cons a l ih =>
    by_cases h : g a = b
    · simp [List.filterMap_cons, List.filter_cons, h, ih]
    · simp [List.filterMap_cons, List.filter_cons, h, ih]

theorem tripleOf_of_ok (shapes : List ShapeRow) (t : TripRow) (h : tripOk shapes t = true) :
    tripleOf t = some (t.route_id.getD "", t.direction_id.getD "0", sidOf t) := by
  have h1 := (Bool.and_eq_true _ _).mp h
  have h2 := (Bool.and_eq_true _ _).mp h1.1
  simp [tripleOf, h2.1, h2.2, sidOf]

theorem jfix5_quant (v : JsNum) :
    jfix5 v = none ∨ ∃ n : ℤ, jfix5 v = some ((n : ℚ) / 100000) := by
  cases v with
  | none => exact Or.inl rfl
  | some q => exact Or.inr ⟨⌊q * 100000 + 1 / 2⌋, rfl⟩

theorem foldl_cacheStep_reads (ops : List CacheOp) (h : ∀ op ∈ ops, op = CacheOp.read) :
    ∀ st, ops.foldl cacheStep st = st := by
  induction ops with
  | nil => intro st; rfl
  | cons op rest ih =>
    intro st
    have hop : op = CacheOp.read := h op (List.mem_cons_self _ _)
    rw [List.foldl_cons, hop]
    exact ih (fun o ho => h o (List.mem_cons_of_mem _ ho)) st

theorem le_foldr_max (ds : List ℚ) (d : ℚ) (h : d ∈ ds) : d ≤ ds.foldr max 0 := by
  induction ds with
  | nil => simp at h
  | cons a rest ih =>
    rcases List.mem_cons.mp h with rfl | h'
    · exact le_max_left _ _
    · exact le_trans (ih h') (le_max_right _ _)

theorem foldr_max_nonneg (ds : List ℚ) : 0 ≤ ds.foldr max 0 := by
  induction ds with
  | nil => simp
  | cons a rest ih => exact le_trans ih (le_max_right _ _)

/-- C4: before any `Replace` of `cachedShapes`, every `/api/shapes_merged`
read reports the distinct not-loaded condition — never a payload, in
particular never an empty feature collection — and after a `Replace`,
every read returns exactly the replaced snapshot until the next
`Replace`. -/
theorem claim_C4 (ops pre post : List CacheOp) (s : FeatureCollection) :
    ((∀ op ∈ ops, op = CacheOp.read) →
      shapesMergedHandler (runCache ops) = ShapesResp.notLoaded ∧
      ∀ fc : FeatureCollection, ShapesResp.notLoaded ≠ ShapesResp.payload fc) ∧
    ((∀ op ∈ post, op = CacheOp.read) →
      shapesMergedHandler (runCache (pre ++ CacheOp.replace s :: post)) =
        ShapesResp.payload s) := by
  constructor
  · intro h
    refine ⟨?_, fun fc => by simp⟩
    rw [runCache, foldl_cacheStep_reads ops h]
    rfl
  · intro h
    rw [runCache, List.foldl_append, List.foldl_cons]
    rw [show cacheStep (List.foldl cacheStep none pre) (CacheOp.replace s) = some s from rfl]
    rw [foldl_cacheStep_reads post h]
    rfl

theorem claim_C4_witness :
    (shapesMergedHandler (runCache [CacheOp.read, CacheOp.read]) = ShapesResp.notLoaded ∧
      ∀ fc : FeatureCollection, ShapesResp.notLoaded ≠ ShapesResp.payload fc) ∧
    shapesMergedHandler
        (runCache ([CacheOp.read] ++ CacheOp.replace demoSnapshot :: [CacheOp.read])) =
      ShapesResp.payload demoSnapshot :=
  ⟨(claim_C4 [CacheOp.read, CacheOp.read] [CacheOp.read] [CacheOp.read] demoSnapshot).1
      (by intro op hop; simp at hop; simp [hop]),
   (claim_C4 [CacheOp.read, CacheOp.read] [CacheOp.read] [CacheOp.read] demoSnapshot).2
      (by intro op hop; simp at hop; simp [hop])⟩

/-- C5: on the spec's concrete scenario — shape `S1` with points
`(seq 2, lon -74.0, lat 40.7)` and `(seq 1, lon -74.01, lat 40.71)` and
the single trip `(route "A", shape "S1", direction "0")` — the build
groups by shape, sorts ascending by numeric sequence before any use, and
emits exactly one feature for `("A", "0")` whose single line is
`[[-74.01, 40.71], [-74.0, 40.7]]`, longitude first. -/
theorem claim_C5 :
    buildShapesCache demoShapes demoTrips =
      FeatureCollection.mk [Feature.mk "A" "0"
        [[(some (-7401/100), some (4071/100)), (some (-74), some (407/10))]]] := by
  norm_num [buildShapesCache, buildRds, stepTrip, ensureSlot, pushLine, featuresOf,
    groupSorted, jsSort, insertStable, seqKeep, jsub, lineOf, simplify, jfix5, aget, aset,
    truthy, keyOf3, demoShapes, demoTrips]
  simp

/-- C6 counterexample: the build does not skip a shape row with a
non-numeric coordinate.  With shape `S1` whose first row has a
non-numeric longitude (`Number` gives `NaN`, here `none`), the built
snapshot contains a two-point line whose first coordinate is the `NaN`
longitude contributed by exactly that malformed row — the claim says the
row is skipped and contributes no coordinates. -/
theorem claim_C6_counterexample :
    buildShapesCache nanShapes demoTrips =
      FeatureCollection.mk [Feature.mk "A" "0"
        [[(none, some (407/10)), (some 1, some 2)]]] := by
  norm_num [buildShapesCache, buildRds, stepTrip, ensureSlot, pushLine, featuresOf,
    groupSorted, jsSort, insertStable, seqKeep, jsub, lineOf, simplify, jfix5, aget, aset,
    truthy, keyOf3, nanShapes, demoTrips]
  simp

/-- C6 amended: the build fails only when a source table itself cannot be
read (the `readGTFSFile` exception propagates, and once both tables read
the build always completes).  A trip that is missing `route_id` or
`shape_id`, or whose `shape_id` matches no shape row, is skipped exactly
— removing it from the table leaves the snapshot unchanged.  Shape rows
with non-numeric coordinates or sequences are not skipped: their `NaN`
values flow into the snapshot (see the counterexample). -/
theorem claim_C6_amended :
    (∀ (shapes : List ShapeRow) (pre post : List TripRow) (t : TripRow),
        tripOk shapes t = false →
        buildShapesCache shapes (pre ++ t :: post) = buildShapesCache shapes (pre ++ post)) ∧
    (∀ (shapes : List ShapeRow) (trips : List TripRow),
        buildShapesCacheE (Except.ok shapes) (Except.ok trips) =
          Except.ok (buildShapesCache shapes trips)) ∧
    (∀ (e : String) (tripsR : Except String (List TripRow)),
        buildShapesCacheE (Except.error e) tripsR = Except.error e) ∧
    (∀ (e : String) (shapes : List ShapeRow),
        buildShapesCacheE (Except.ok shapes) (Except.error e) = Except.error e) := by
  refine ⟨?_, ?_, ?_, ?_⟩
  · intro shapes pre post t ht
    unfold buildShapesCache buildRds
    rw [List.foldl_append, List.foldl_append, List.foldl_cons, stepTrip_not_ok shapes _ t ht]
  · intro shapes trips; rfl
  · intro e tripsR; rfl
  · intro e shapes; rfl

theorem claim_C6_witness :
    tripOk demoShapes (TripRow.mk none (some "S1") none) = false ∧
    buildShapesCache demoShapes ([] ++ TripRow.mk none (some "S1") none :: demoTrips) =
      buildShapesCache demoShapes ([] ++ demoTrips) :=
  ⟨rfl, claim_C6_amended.1 demoShapes [] demoTrips (TripRow.mk none (some "S1") none) rfl⟩

/-- C8 counterexample: no per-fetch timeout exists.  A source whose fetch
takes `10^9` seconds still settles successfully — its vehicle is
returned and no error (in particular no timeout error) is recorded — and
the `Promise.all` join waits the full `10^9` seconds, exceeding any
purported `timeout + small constant` bound. -/
theorem claim_C8_counterexample :
    collectSettleTime [1000000000] = 1000000000 ∧
    (collectVehicles demoRnd [srcSlow] [0]).errorLog = [] ∧
    (collectVehicles demoRnd [srcSlow] [0]).vehicles.length = 1 := by
  refine ⟨?_, rfl, rfl⟩
  norm_num [collectSettleTime]

/-- C8 amended: `fetch(url)` carries no timeout or abort signal, so every
per-source duration bounds the aggregation from below — the `Promise.all`
join settles only when the slowest source does, and nothing caps that
wait (the settle time is however never less than zero, and a fast poll is
possible only when every source is fast). -/
theorem claim_C8_amended (ds : List ℚ) (d : ℚ) (h : d ∈ ds) :
    d ≤ collectSettleTime ds ∧ 0 ≤ collectSettleTime ds :=
  ⟨le_foldr_max ds d h, foldr_max_nonneg ds⟩

theorem claim_C8_witness :
    (3 : ℚ) ∈ [(3 : ℚ)] ∧
      ((3 : ℚ) ≤ collectSettleTime [3] ∧ 0 ≤ collectSettleTime [3]) :=
  ⟨by simp, claim_C8_amended [3] 3 (by simp)⟩

/-- C7 counterexample: the vehicle order is not source-list order — it is
settlement order.  With the same two succeeding sources, the settlement
orders `[0, 1]` and `[1, 0]` (both genuine permutations of the source
indices) produce different vehicle sequences, so the result is not
determined by the input snapshot and source ordering alone. -/
theorem claim_C7_counterexample :
    ((collectVehicles demoRnd [srcA, srcB] [0, 1]).vehicles.map VehicleRec.id) =
        [VehicleId.str "a", VehicleId.str "b"] ∧
    ((collectVehicles demoRnd [srcA, srcB] [1, 0]).vehicles.map VehicleRec.id) =
        [VehicleId.str "b", VehicleId.str "a"] ∧
    List.Perm [1, 0] (List.range 2) ∧
    [VehicleId.str "a", VehicleId.str "b"] ≠ [VehicleId.str "b", VehicleId.str "a"] :=
  ⟨rfl, rfl, by decide, by decide⟩

/-- C7 amended: for a fixed settlement order the aggregation is
deterministic and the vehicle list is the concatenation of one contiguous
block per settled source, each block in per-feed entity order; when the
settlement order happens to be source-list order, the id-free vehicle
sequence is exactly the source-order concatenation of the per-feed
entity data. -/
theorem claim_C7_amended (rnd : ℕ → ℚ) (sources : List FeedSource) (sched : List ℕ) :
    (collectVehicles rnd sources sched).vehicles = schedBlocks rnd sources sched 0 ∧
    ((collectVehicles rnd sources (List.range sources.length)).vehicles.map stripId) =
      sources.flatMap okData := by
  constructor
  · have := (collectGo_spec rnd sources sched [] [] 0).1
    simpa using this
  · have h1 := (collectGo_spec rnd sources (List.range sources.length) [] [] 0).1
    simp only [List.nil_append] at h1
    have h2 : (collectVehicles rnd sources (List.range sources.length)).vehicles =
        schedBlocks rnd sources (List.range sources.length) 0 := h1
    rw [h2, schedBlocks_stripId, range_flatMap_get]

/-- C1 counterexample: the HTTP response carries no per-source error map.
One run with one failing source and another with two failing sources
produce byte-identical responses (`{ok: true, vehicles}`), so the
response cannot contain "exactly K entries keyed by source" — the K
failures are only visible in the console log. -/
theorem claim_C1_counterexample :
    vehiclesHandler demoRnd [srcA, srcFail1] [0, 1] =
      vehiclesHandler demoRnd [srcA, srcFail1, srcFail2] [0, 1, 2] := rfl

/-- C1 amended: over any settlement order, the aggregation returns the
union of the vehicles of the succeeding sources (as id-free data, a
permutation of the per-feed entity data of exactly the succeeding
sources); each failing source contributes exactly one console-log entry
keyed by its url — K failures yield exactly K log entries — but these
entries are not part of the HTTP response; and when every source fails
the handler still answers `{ok: true, vehicles: []}` rather than
raising a failure (only an empty source list yields the distinct
configuration-error response). -/
theorem claim_C1_amended (rnd : ℕ → ℚ) (sources : List FeedSource) (sched : List ℕ)
    (hp : sched.Perm (List.range sources.length)) :
    (collectVehicles rnd sources sched).errorLog.Perm (sources.filterMap errEntry) ∧
    (collectVehicles rnd sources sched).errorLog.length =
      (sources.filter isErrSource).length ∧
    ((collectVehicles rnd sources sched).vehicles.map stripId).Perm
      (sources.flatMap okData) ∧
    (sources ≠ [] → (∀ s ∈ sources, isErrSource s = true) →
      vehiclesHandler rnd sources sched = VehiclesResp.okBody []) := by
  have hlog : (collectVehicles rnd sources sched).errorLog =
      sched.filterMap (fun i => (sources.get? i).bind errEntry) := by
    have := (collectGo_spec rnd sources sched [] [] 0).2
    simpa using this
  have hveh : (collectVehicles rnd sources sched).vehicles =
      schedBlocks rnd sources sched 0 := by
    have := (collectGo_spec rnd sources sched [] [] 0).1
    simpa using this
  have hlogPerm : (collectVehicles rnd sources sched).errorLog.Perm
      (sources.filterMap errEntry) := by
    rw [hlog]
    have h1 := List.Perm.filterMap (fun i => (sources.get? i).bind errEntry) hp
    rwa [range_filterMap_get] at h1
  have hvehPerm : ((collectVehicles rnd sources sched).vehicles.map stripId).Perm
      (sources.flatMap okData) := by
    rw [hveh, schedBlocks_stripId]
    have h1 := List.Perm.flatMap_right
      (fun i => ((sources.get? i).map okData).getD []) hp
    rwa [range_flatMap_get] at h1
  refine ⟨hlogPerm, ?_, hvehPerm, ?_⟩
  · rw [hlogPerm.length_eq, filterMap_errEntry_length]
  · intro hne hall
    have hnil : sources.flatMap okData = [] := by
      rw [List.flatMap_eq_nil_iff]
      intro s hs
      have hcase := hall s hs
      cases ho : s.outcome with
      | ok ents => simp [isErrSource, ho] at hcase
      | err m => simp [okData, ho]
    have hmap : (collectVehicles rnd sources sched).vehicles.map stripId = [] :=
      List.Perm.eq_nil (hnil ▸ hvehPerm)
    have hv2 : (collectVehicles rnd sources sched).vehicles = [] :=
      List.map_eq_nil_iff.mp hmap
    unfold vehiclesHandler
    rw [if_neg (by simpa using hne), hv2]

theorem claim_C1_witness :
    List.Perm [1, 0] (List.range ([srcA, srcFail1] : List FeedSource).length) ∧
    ((collectVehicles demoRnd [srcA, srcFail1] [1, 0]).errorLog.Perm
        ([srcA, srcFail1].filterMap errEntry) ∧
      (collectVehicles demoRnd [srcA, srcFail1] [1, 0]).errorLog.length =
        ([srcA, srcFail1].filter isErrSource).length ∧
      ((collectVehicles demoRnd [srcA, srcFail1] [1, 0]).vehicles.map stripId).Perm
        ([srcA, srcFail1].flatMap okData) ∧
      (([srcA, srcFail1] : List FeedSource) ≠ [] →
        (∀ s ∈ ([srcA, srcFail1] : List FeedSource), isErrSource s = true) →
        vehiclesHandler demoRnd [srcA, srcFail1] [1, 0] = VehiclesResp.okBody [])) :=
  ⟨by decide, claim_C1_amended demoRnd [srcA, srcFail1] [1, 0] (by decide)⟩

/-- C9 counterexample: synthesized placeholders are not guaranteed unique.
`Math.random()` gives no uniqueness promise; with a random source that
repeats (here constantly `37`), two entities that both lack ids receive
the same placeholder within one call — the first and second synthesized
ids coincide. -/
theorem claim_C9_counterexample :
    ((pushEntities demoRnd [entNoId, entNoId] 0).1.map VehicleRec.id) =
        [VehicleId.num 37, VehicleId.num 37] ∧
    ((pushEntities demoRnd [entNoId, entNoId] 0).1.map VehicleRec.id).get? 0 =
      ((pushEntities demoRnd [entNoId, entNoId] 0).1.map VehicleRec.id).get? 1 :=
  ⟨rfl, rfl⟩

/-- C9 amended: the id of a pushed vehicle is resolved exactly in the
order feed-entity id, else embedded vehicle id, else the next
`Math.random()` value; the placeholders of one call are successive values
of the random source, so they are pairwise distinct whenever the random
source does not repeat — but `Math.random()` itself guarantees no such
thing, within or across polls (see the counterexample). -/
theorem claim_C9_amended (rnd : ℕ → ℚ) (ents : List FeedEntity) (c : ℕ)
    (e : FeedEntity) (es : List FeedEntity) (v : GtfsVehicle) (pos : GtfsPosition)
    (hv : e.vehicle = some v) (hp : v.position = some pos) :
    (∀ i, e.id = some i →
      ((pushEntities rnd (e :: es) c).1.map VehicleRec.id).head? =
        some (VehicleId.str i)) ∧
    (∀ i, e.id = none → v.vehicle.bind GtfsVehicleDesc.id = some i →
      ((pushEntities rnd (e :: es) c).1.map VehicleRec.id).head? =
        some (VehicleId.str i)) ∧
    (e.id = none → v.vehicle.bind GtfsVehicleDesc.id = none →
      ((pushEntities rnd (e :: es) c).1.map VehicleRec.id).head? =
        some (VehicleId.num (rnd c))) ∧
    (Function.Injective rnd →
      ((pushEntities rnd ents c).1.filterMap numIdOf).Nodup) := by
  refine ⟨?_, ?_, ?_, ?_⟩
  · intro i hi
    simp [pushEntities, hv, hp, hi]
  · intro i hi hvi
    simp [pushEntities, hv, hp, hi, hvi]
  · intro hi hvi
    simp [pushEntities, hv, hp, hi, hvi]
  · intro hinj
    rw [pushEntities_numIds]
    exact List.Nodup.map hinj (List.nodup_range' c (consumedCount ents))

theorem claim_C9_witness :
    (entNoId.vehicle =
        some (GtfsVehicle.mk (some (GtfsPosition.mk 5 6 none)) none none none)) ∧
    ((∀ i, entNoId.id = some i →
        ((pushEntities idRnd (entNoId :: [entNoId]) 0).1.map VehicleRec.id).head? =
          some (VehicleId.str i)) ∧
      (∀ i, entNoId.id = none →
        (GtfsVehicle.mk (some (GtfsPosition.mk 5 6 none)) none none none).vehicle.bind
            GtfsVehicleDesc.id = some i →
        ((pushEntities idRnd (entNoId :: [entNoId]) 0).1.map VehicleRec.id).head? =
          some (VehicleId.str i)) ∧
      (entNoId.id = none →
        (GtfsVehicle.mk (some (GtfsPosition.mk 5 6 none)) none none none).vehicle.bind
            GtfsVehicleDesc.id = none →
        ((pushEntities idRnd (entNoId :: [entNoId]) 0).1.map VehicleRec.id).head? =
          some (VehicleId.num (idRnd 0))) ∧
      (Function.Injective idRnd →
        ((pushEntities idRnd [entNoId, entNoId] 0).1.filterMap numIdOf).Nodup)) :=
  ⟨rfl, claim_C9_amended idRnd [entNoId, entNoId] 0 entNoId [entNoId]
      (GtfsVehicle.mk (some (GtfsPosition.mk 5 6 none)) none none none)
      (GtfsPosition.mk 5 6 none) rfl rfl⟩

/-- C2: the deduplication invariant.  For every input and every
`(route, direction, shape)` triple, the slot the snapshot stores for
`(route, direction)` is the image of a kept subsequence of the trip
table in which at most one trip carries the shape `s` — so at most one
polyline is sourced from the triple — and any kept trip carrying `s` is
the first row of the trip table whose resolved triple is
`(route, direction, s)`. -/
theorem claim_C2 (shapes : List ShapeRow) (trips : List TripRow) (r d s : String) :
    ∃ kept : List TripRow,
      linesAt (buildRds shapes trips) r d =
        kept.map (fun t => lineOf shapes (sidOf t)) ∧
      (∀ t ∈ kept, tripleOf t = some (r, d, sidOf t)) ∧
      (kept.filter (fun t => decide (sidOf t = s))).length ≤ 1 ∧
      (∀ t ∈ kept, sidOf t = s →
        trips.find? (fun u => decide (tripleOf u = some (r, d, s))) = some t) := by
  have htriple : ∀ t ∈ (keptSub shapes [] trips).filter
      (fun t => decide (bucketOf t = (r, d))),
      tripleOf t = some (r, d, sidOf t) := by
    intro t ht
    rw [List.mem_filter] at ht
    have hok := keptSub_ok shapes trips [] t ht.1
    have htr := tripleOf_of_ok shapes t hok
    have hb : bucketOf t = (r, d) := by simpa using ht.2
    have h1 : t.route_id.getD "" = r := congrArg Prod.fst hb
    have h2 : t.direction_id.getD "0" = d := congrArg Prod.snd hb
    rw [htr, h1, h2]
  refine ⟨(keptSub shapes [] trips).filter (fun t => decide (bucketOf t = (r, d))),
    ?_, htriple, ?_, ?_⟩
  · have h1 := linesAt_foldl shapes trips (BuildState.mk [] []) r d
    rw [filterMap_if_eq_map_filter (keptSub shapes [] trips)
        (fun t => lineOf shapes (sidOf t)) bucketOf (r, d)] at h1
    simpa [buildRds, linesAt, aget] using h1
  · apply length_filter_le_one _ tripKey _ (keyOf3 r d s)
    · refine List.Nodup.sublist ?_ (keptSub_keys_nodup shapes trips [])
      exact List.Sublist.map tripKey (List.filter_sublist _)
    · intro t ht hts
      have h1 := htriple t ht
      have h2 : sidOf t = s := by simpa using hts
      rw [h2] at h1
      exact tripKey_of_triple t r d s h1
  · intro t ht hts
    have h1 := htriple t ht
    rw [hts] at h1
    rw [List.mem_filter] at ht
    exact keptSub_find shapes trips [] t r d s ht.1 h1

/-- Every line stored in the built snapshot is the simplified, rounded
line of some shape id — the provenance fact shared by the endpoint and
quantization analyses. -/
theorem build_line_exists (shapes : List ShapeRow) (trips : List TripRow)
    (f : Feature) (line : List Coord)
    (hf : f ∈ (buildShapesCache shapes trips).features)
    (hl : line ∈ f.coordinates) :
    ∃ sid : String, line = lineOf shapes sid := by
  have hco : f.coordinates = linesAt (buildRds shapes trips) f.route_id f.direction_id :=
    features_coords _ (keysOk_buildRds shapes trips) f hf
  rw [hco] at hl
  have h1 := linesAt_foldl shapes trips (BuildState.mk [] []) f.route_id f.direction_id
  have h2 : linesAt (buildRds shapes trips) f.route_id f.direction_id =
      (keptSub shapes [] trips).filterMap
        (fun t => if bucketOf t = (f.route_id, f.direction_id) then
          some (lineOf shapes (sidOf t)) else none) := by
    simpa [buildRds, linesAt, aget] using h1
  rw [h2] at hl
  rw [List.mem_filterMap] at hl
  obtain ⟨t, ht, hline⟩ := hl
  by_cases hb : bucketOf t = (f.route_id, f.direction_id)
  · rw [if_pos hb, Option.some.injEq] at hline
    exact ⟨sidOf t, hline.symm⟩
  · rw [if_neg hb] at hline
    cases hline

/-- C3 counterexample: the stored endpoints are not exactly the input
endpoints.  The first input point of the matched shape has longitude
`0.000006`; the first coordinate of the stored line is the rounded
`0.00001`, which differs from the input longitude — `toFixed(5)` altered
the endpoint. -/
theorem claim_C3_counterexample :
    buildShapesCache roundShapes demoTrips =
      FeatureCollection.mk [Feature.mk "A" "0"
        [[(some (1/100000), some 0), (some 1, some 1)]]] ∧
    (some ((1 : ℚ)/100000) : JsNum) ≠ some ((6 : ℚ)/1000000) := by
  constructor
  · norm_num [buildShapesCache, buildRds, stepTrip, ensureSlot, pushLine, featuresOf,
      groupSorted, jsSort, insertStable, seqKeep, jsub, lineOf, simplify, jfix5, aget, aset,
      truthy, keyOf3, roundShapes, demoTrips]
    simp
  · intro h
    rw [Option.some.injEq] at h
    norm_num at h

/-- C3 amended: for every shape with at least two points (after sorting)
matched by some trip, the stored line's first and last coordinates are
exactly the `toFixed(5)` roundings of the first and last sorted input
points — the simplification step itself never removes or reorders the
endpoints; only the subsequent rounding can alter their values. -/
theorem claim_C3_amended (shapes : List ShapeRow) (trips : List TripRow)
    (f : Feature) (line : List Coord)
    (hf : f ∈ (buildShapesCache shapes trips).features)
    (hl : line ∈ f.coordinates) :
    ∃ sid : String, line = lineOf shapes sid ∧
      (2 ≤ (groupSorted shapes sid).length →
        line.head? = (groupSorted shapes sid).head?.map rowCoord ∧
        line.getLast? = (groupSorted shapes sid).getLast?.map rowCoord) := by
  obtain ⟨sid, hline⟩ := build_line_exists shapes trips f line hf hl
  refine ⟨sid, hline, ?_⟩
  intro hlen
  have hne : groupSorted shapes sid ≠ [] := by
    intro hc
    rw [hc] at hlen
    simp at hlen
  rw [hline]
  exact ⟨lineOf_head shapes sid hne, lineOf_getLast shapes sid hne⟩

/-- C10 counterexample: two input points that differ only beyond the
fifth decimal place need not become identical in the output.  The
longitudes `0.000004` and `0.000006` agree through the fifth decimal
(they differ by `0.000002 < 0.00001`), yet `toFixed(5)` rounds them to
`0` and `0.00001` respectively, so the stored coordinates differ. -/
theorem claim_C10_counterexample :
    buildShapesCache quantShapes demoTrips =
      FeatureCollection.mk [Feature.mk "A" "0"
        [[(some 0, some 0), (some (1/100000), some 1)]]] ∧
    (some (0 : ℚ) : JsNum) ≠ some ((1 : ℚ)/100000) ∧
    ((6 : ℚ)/1000000 - 4/1000000) < 1/100000 := by
  refine ⟨?_, ?_, by norm_num⟩
  · norm_num [buildShapesCache, buildRds, stepTrip, ensureSlot, pushLine, featuresOf,
      groupSorted, jsSort, insertStable, seqKeep, jsub, lineOf, simplify, jfix5, aget, aset,
      truthy, keyOf3, quantShapes, demoTrips]
    simp
  · intro h
    rw [Option.some.injEq] at h
    norm_num at h

/-- C10 amended: every coordinate stored in the snapshot is the
`Number(x.toFixed(5))` rounding of a simplified source coordinate — an
integer multiple of `0.00001` (or `NaN` carried over from a malformed
row); readers receive 5-decimal-quantized values, and two source points
become identical exactly when their roundings coincide, which points
differing only beyond the fifth decimal place need not do (see the
counterexample). -/
theorem claim_C10_amended (shapes : List ShapeRow) (trips : List TripRow)
    (f : Feature) (line : List Coord) (c : Coord)
    (hf : f ∈ (buildShapesCache shapes trips).features)
    (hl : line ∈ f.coordinates) (hc : c ∈ line) :
    (∃ sid : String, line = lineOf shapes sid) ∧
    (∃ x : JsNum, c.1 = jfix5 x) ∧ (∃ y : JsNum, c.2 = jfix5 y) ∧
    (c.1 = none ∨ ∃ n : ℤ, c.1 = some ((n : ℚ) / 100000)) ∧
    (c.2 = none ∨ ∃ n : ℤ, c.2 = some ((n : ℚ) / 100000)) := by
  obtain ⟨sid, hline⟩ := build_line_exists shapes trips f line hf hl
  rw [hline] at hc
  unfold lineOf at hc
  rw [List.mem_map] at hc
  obtain ⟨pt, _, hpt⟩ := hc
  subst hpt
  exact ⟨⟨sid, hline⟩, ⟨pt.x, rfl⟩, ⟨pt.y, rfl⟩, jfix5_quant pt.x, jfix5_quant pt.y⟩

theorem claim_C3_witness :
    ∃ sid : String,
      [((some (-7401/100) : JsNum), (some (4071/100) : JsNum)),
       ((some (-74) : JsNum), (some (407/10) : JsNum))] = lineOf demoShapes sid ∧
      (2 ≤ (groupSorted demoShapes sid).length →
        ([((some (-7401/100) : JsNum), (some (4071/100) : JsNum)),
          ((some (-74) : JsNum), (some (407/10) : JsNum))] : List Coord).head? =
            (groupSorted demoShapes sid).head?.map rowCoord ∧
        ([((some (-7401/100) : JsNum), (some (4071/100) : JsNum)),
          ((some (-74) : JsNum), (some (407/10) : JsNum))] : List Coord).getLast? =
            (groupSorted demoShapes sid).getLast?.map rowCoord) :=
  claim_C3_amended demoShapes demoTrips
    (Feature.mk "A" "0"
      [[(some (-7401/100), some (4071/100)), (some (-74), some (407/10))]])
    [(some (-7401/100), some (4071/100)), (some (-74), some (407/10))]
    (by
      have hb : buildShapesCache demoShapes demoTrips =
          FeatureCollection.mk [Feature.mk "A" "0"
            [[(some (-7401/100), some (4071/100)), (some (-74), some (407/10))]]] := by
        norm_num [buildShapesCache, buildRds, stepTrip, ensureSlot, pushLine, featuresOf,
          groupSorted, jsSort, insertStable, seqKeep, jsub, lineOf, simplify, jfix5, aget,
          aset, truthy, keyOf3, demoShapes, demoTrips]
        simp
      rw [hb]
      simp)
    (by simp)

theorem claim_C10_witness :
    (∃ sid : String,
      [((some (-7401/100) : JsNum), (some (4071/100) : JsNum)),
       ((some (-74) : JsNum), (some (407/10) : JsNum))] = lineOf demoShapes sid) ∧
    (∃ x : JsNum, ((some (-7401/100) : JsNum), (some (4071/100) : JsNum)).1 = jfix5 x) ∧
    (∃ y : JsNum, ((some (-7401/100) : JsNum), (some (4071/100) : JsNum)).2 = jfix5 y) ∧
    (((some (-7401/100) : JsNum), (some (4071/100) : JsNum)).1 = none ∨
      ∃ n : ℤ, ((some (-7401/100) : JsNum), (some (4071/100) : JsNum)).1 =
        some ((n : ℚ) / 100000)) ∧
    (((some (-7401/100) : JsNum), (some (4071/100) : JsNum)).2 = none ∨
      ∃ n : ℤ, ((some (-7401/100) : JsNum), (some (4071/100) : JsNum)).2 =
        some ((n : ℚ) / 100000)) :=
  claim_C10_amended demoShapes demoTrips
    (Feature.mk "A" "0"
      [[(some (-7401/100), some (4071/100)), (some (-74), some (407/10))]])
    [(some (-7401/100), some (4071/100)), (some (-74), some (407/10))]
    ((some (-7401/100) : JsNum), (some (4071/100) : JsNum))
    (by
      have hb : buildShapesCache demoShapes demoTrips =
          FeatureCollection.mk [Feature.mk "A" "0"
            [[(some (-7401/100), some (4071/100)), (some (-74), some (407/10))]]] := by
        norm_num [buildShapesCache, buildRds, stepTrip, ensureSlot, pushLine, featuresOf,
          groupSorted, jsSort, insertStable, seqKeep, jsub, lineOf, simplify, jfix5, aget,
          aset, truthy, keyOf3, demoShapes, demoTrips]
        simp
      rw [hb]
      simp)
    (by simp)
    (by simp)
